import Mathlib

/-!
# Verification of the errata_tool_release reconciliation module

A shallow embedding of `library/errata_tool_release.py`: the release
reconciliation engine for the Errata Tool.  Python dictionaries are modelled
as ordered association lists (`Params`), JSON values as the inductive
`Value`, the HTTP client as a record of lookup functions plus response
status functions, and write side effects (POST/PUT) as an explicit trace of
`WriteCall`s returned alongside the `Except` result of each function.

Functions from `ansible.module_utils.common_errata_tool` (diff_settings,
describe_changes, task_diff_data, user_id) are not part of this repository
snapshot; they are modelled from the specification and marked
as such in their doc comments.
-/

set_option autoImplicit false

deriving instance DecidableEq for Except

namespace Errata

/-- A raw relationship element as returned by the server for list-valued
relationships (`product_versions`, `brew_tags`): an object carrying an `id`
and a display `name`. -/
structure PV where
  id : Nat
  name : String
deriving DecidableEq, Repr

/-- JSON-ish values that flow through the module: nulls, booleans, numbers,
strings, lists of strings, lists of numbers and lists of relationship
objects. -/
inductive Value where
  | null : Value
  | bool (b : Bool) : Value
  | nat (n : Nat) : Value
  | str (s : String) : Value
  | listStr (xs : List String) : Value
  | listNat (xs : List Nat) : Value
  | listPV (xs : List PV) : Value
deriving DecidableEq, Repr

/-- Python truthiness of a value (`if v:`): `None`, `False`, `0`, `""` and
empty lists are falsy. -/
def Value.truthy : Value → Bool
  | .null => false
  | .bool b => b
  | .nat n => n != 0
  | .str s => s != ""
  | .listStr xs => !xs.isEmpty
  | .listNat xs => !xs.isEmpty
  | .listPV xs => !xs.isEmpty

/-- Python `"%s" % v` string interpolation of a value, used when building
URL paths and messages. -/
def Value.render : Value → String
  | .null => "None"
  | .bool true => "True"
  | .bool false => "False"
  | .nat n => toString n
  | .str s => s
  | .listStr xs => "[" ++ String.intercalate ", " xs ++ "]"
  | .listNat xs => "[" ++ String.intercalate ", " (xs.map toString) ++ "]"
  | .listPV xs => "[" ++ String.intercalate ", " (xs.map PV.name) ++ "]"

/-- A Python dict of module parameters, modelled as an insertion-ordered
association list (dicts preserve insertion order). -/
abbrev Params := List (String × Value)

/-- Dict key lookup (`d.get(k)` / `k in d`): the value at the first entry
with the given key. -/
def lookup : Params → String → Option Value
  | [], _ => none
  | kv :: rest, k => if kv.1 = k then some kv.2 else lookup rest k

/-- Dict item assignment (`d[k] = v`): replace the value in place when the
key is present (keeping its position), otherwise append a new entry. -/
def upsert (ps : Params) (k : String) (v : Value) : Params :=
  if (lookup ps k).isSome then
    ps.map (fun kv => if kv.1 = k then (k, v) else kv)
  else
    ps ++ [(k, v)]

/-- Dict key removal (`d.pop(k)` after the value has been read): drop the
entry with the given key. -/
def erase (ps : Params) (k : String) : Params :=
  ps.filter (fun kv => kv.1 != k)

/-- A field-level difference: (field name, old value, new value). -/
abbrev Difference := String × Value × Value

/-- Errors raised by the module: HTTP errors from `raise_for_status`,
Python `KeyError`/`TypeError`/`ValueError`, the user-lookup failure and its
program-manager-specific subtype, and an unexpected write status code. -/
inductive Err where
  | httpError (path : String) : Err
  | keyError (key : String) : Err
  | typeError (what : String) : Err
  | valueError (msg : String) : Err
  | userNotFound (login : String) : Err
  | programManagerNotFound (login : String) : Err
  | remoteRejected (status : Nat) : Err
deriving DecidableEq, Repr

/-- The JSON body POSTed or PUT to the releases endpoint: the transformed
parameters under the `release` key plus an optional top-level `type`. -/
structure ApiData where
  release : Params
  type : Option Value
deriving DecidableEq, Repr

/-- A mutating HTTP call issued by the module. -/
inductive WriteCall where
  | post (path : String) (data : ApiData) : WriteCall
  | put (path : String) (data : ApiData) : WriteCall
deriving DecidableEq, Repr

/-- A raw release element of the name-filtered list response: `id`, the
`attributes` mapping, and the `relationships` mapping (single-object
relationships carry their display key or are null; list relationships are
lists of objects). -/
structure RawRelease where
  id : Nat
  attributes : Params
  product : Option String
  program_manager : Option String
  state_machine_rule_set : Option String
  brew_tags : List PV
  product_versions : List PV
deriving DecidableEq, Repr

/-- The Errata client boundary: read lookups keyed by the interpolated name
string, and the status codes the server answers to writes with. -/
structure Client where
  releases : String → List RawRelease
  productIds : String → Option Nat
  userIds : String → Option Nat
  productVersionIds : String → Option Nat
  ruleSetIds : String → Option Nat
  postStatus : String → ApiData → Nat
  putStatus : String → ApiData → Nat

/-- The result dictionary of `ensure_release`: the `changed` flag, the
ordered human-readable change lines, and the optional structured diff. -/
structure DiffData where
  before : Params
  after : Params
deriving DecidableEq, Repr

structure Result where
  changed : Bool
  stdout_lines : List String
  diff : Option DiffData
deriving DecidableEq, Repr

/-! ## Functions modelled from the spec

The following helpers live in `ansible.module_utils.common_errata_tool`,
which is not part of this repository snapshot; they are modelled from the
specification. -/

/-- Modelled from the spec: `common_errata_tool.user_id` is not under
`src/`.  Spec section 4.2: the user resolver looks a user up by login and
fails with `UserNotFoundError` when the user does not exist. -/
def user_id (client : Client) (login : Value) : Except Err Nat :=
  match client.userIds login.render with
  | some i => .ok i
  | none => .error (.userNotFound login.render)

/-- Modelled from the spec: `common_errata_tool.diff_settings` is not under
`src/`.  Spec sections 4.4 and 8: walk the desired params in order, compare
each desired value with the corresponding current value (lists compare as
full ordered sequences), and emit a `(field, old, new)` Difference exactly
when they are unequal. -/
def diff_settings (settings : Params) (params : Params) : List Difference :=
  params.filterMap (fun kv =>
    let current := (lookup settings kv.1).getD Value.null
    if current = kv.2 then none else some (kv.1, current, kv.2))

/-- Modelled from the spec: `common_errata_tool.describe_changes` is not
under `src/`.  Spec section 4.5: build one human-readable change line per
Difference, preserving order. -/
def describe_changes (differences : List Difference) : List String :=
  differences.map (fun d =>
    "changing " ++ d.1 ++ " from " ++ d.2.1.render ++ " to " ++ d.2.2.render)

/-- Modelled from the spec: `common_errata_tool.task_diff_data` is not
under `src/`.  Spec sections 4.5 and 6: package the fetched state and the
desired params into a structured before/after report.  Per the comments at
the call site, `keys_to_copy` carries the server-side value of a key into
the after side when the desired params omit it (avoiding a diff when it is
null to begin with) and `keys_to_omit` hides a key from both sides.  The
presentation-only `item_name`/`item_type` arguments are not modelled. -/
def task_diff_data (before : Option Params) (after : Params)
    (keys_to_copy keys_to_omit : List String) : DiffData :=
  let b := (before.getD []).filter (fun kv => !keys_to_omit.contains kv.1)
  let a := after.filter (fun kv => !keys_to_omit.contains kv.1)
  let a := keys_to_copy.foldl
    (fun acc k =>
      if (lookup acc k).isSome then acc
      else
        match lookup b k with
        | some v => acc ++ [(k, v)]
        | none => acc) a
  { before := b, after := a }

/-! ## The embedded source functions -/

/-- A single-object relationship flattened to its display key: the value
under that key when the relationship object is present, null otherwise. -/
def optStr : Option String → Value
  | some s => Value.str s
  | none => Value.null

/-- The release dict of `get_release` after the `id`, attribute and
relationship assignments (source lines 198-229): `id` first, then the
attributes, then the flattened relationship fields. -/
def normalize_base (rd : RawRelease) : Params :=
  upsert (upsert (upsert (upsert (upsert
    (rd.attributes.foldl (fun acc kv => upsert acc kv.1 kv.2)
      [("id", Value.nat rd.id)])
    "product" (optStr rd.product))
    "program_manager" (optStr rd.program_manager))
    "state_machine_rule_set" (optStr rd.state_machine_rule_set))
    "brew_tags" (Value.listPV rd.brew_tags))
    "product_versions" (Value.listStr (rd.product_versions.map PV.name))

/-- The release dict after the `is_active` -> `active` rename (source line
235): the popped value is re-assigned under `active`. -/
def normalize_active (rd : RawRelease) (active : Value) : Params :=
  upsert (erase (normalize_base rd) "is_active") "active" active

/-- Normalization of a single raw release element (the body of
`get_release` after the result-count checks, source lines 197-243):
`id` plus the attributes, flattened relationship fields, the
`is_active` -> `active` rename (a `KeyError` when the attribute is
missing), and ship-date truncation (Python slicing `[:10]`, which also
works on lists and fails on other non-null values). -/
def normalize_release (rd : RawRelease) : Except Err Params :=
  match lookup (normalize_base rd) "is_active" with
  | none => .error (.keyError "is_active")
  | some active =>
    match lookup (normalize_active rd active) "ship_date" with
    | none => .error (.keyError "ship_date")
    | some Value.null => .ok (normalize_active rd active)
    | some (Value.str s) =>
      .ok (upsert (normalize_active rd active) "ship_date" (Value.str (s.take 10)))
    | some (Value.listStr xs) =>
      .ok (upsert (normalize_active rd active) "ship_date" (Value.listStr (xs.take 10)))
    | some (Value.listNat xs) =>
      .ok (upsert (normalize_active rd active) "ship_date" (Value.listNat (xs.take 10)))
    | some (Value.listPV xs) =>
      .ok (upsert (normalize_active rd active) "ship_date" (Value.listPV (xs.take 10)))
    | some _ => .error (.typeError "ship_date")

/-- `get_release` (source lines 187-243): name-filtered list query, then
none / exactly-one / ambiguous dispatch. -/
def get_release (client : Client) (name : Value) : Except Err (Option Params) :=
  match client.releases name.render with
  | [] => .ok none
  | [rd] => (normalize_release rd).map some
  | _ => .error (.valueError ("multiple " ++ name.render ++ " releases found"))

/-- `get_product_id` (source lines 246-250). -/
def get_product_id (client : Client) (name : Value) : Except Err Nat :=
  match client.productIds name.render with
  | some i => .ok i
  | none => .error (.httpError ("api/v1/products/" ++ name.render))

/-- The URL path of one product-version lookup. -/
def pvPath (name : String) : String := "product_versions/" ++ name ++ ".json"

/-- `get_product_version_ids` (source lines 253-262): one GET per name, in
order, failing at the first name whose lookup fails.  The second component
records the GET paths issued, in order. -/
def get_product_version_ids (client : Client) :
    List String → Except Err (List Nat) × List String
  | [] => (.ok [], [])
  | name :: rest =>
    match client.productVersionIds name with
    | none => (.error (.httpError (pvPath name)), [pvPath name])
    | some i =>
      let (r, t) := get_product_version_ids client rest
      (r.map (fun ids => i :: ids), pvPath name :: t)

/-- `api_data`, product step (source lines 282-285): pop `product`, resolve
it to `product_id` unless it is null. -/
def apiStepProduct (client : Client) (release : Params) : Except Err Params :=
  match lookup release "product" with
  | none => .ok release
  | some product_name =>
    let release := erase release "product"
    if product_name = Value.null then .ok release
    else
      match get_product_id client product_name with
      | .error e => .error e
      | .ok pid => .ok (upsert release "product_id" (Value.nat pid))

/-- `api_data`, program-manager step (source lines 286-292): pop
`program_manager`, resolve it to `program_manager_id`, re-raising a user
lookup failure as `ProgramManagerNotFoundError`. -/
def apiStepProgramManager (client : Client) (release : Params) : Except Err Params :=
  match lookup release "program_manager" with
  | none => .ok release
  | some pm_login_name =>
    let release := erase release "program_manager"
    match user_id client pm_login_name with
    | .error (.userNotFound l) => .error (.programManagerNotFound l)
    | .error e => .error e
    | .ok pm_id => .ok (upsert release "program_manager_id" (Value.nat pm_id))

/-- `api_data`, `active` -> `isactive` rename step (source lines 293-296). -/
def apiStepActive (release : Params) : Params :=
  match lookup release "active" with
  | none => release
  | some active => upsert (erase release "active") "isactive" active

/-- `api_data`, `supports_component_acl` -> `disable_acl` negation step
(source lines 297-300); Python `not` negates truthiness. -/
def apiStepAcl (release : Params) : Params :=
  match lookup release "supports_component_acl" with
  | none => release
  | some v => upsert (erase release "supports_component_acl") "disable_acl"
      (Value.bool (!v.truthy))

/-- `api_data`, `product_versions` -> `product_version_ids` step (source
lines 301-305): pop the name list and resolve each name to its id. -/
def apiStepVersions (client : Client) (release : Params) : Except Err Params :=
  match lookup release "product_versions" with
  | none => .ok release
  | some v =>
    let release := erase release "product_versions"
    match v with
    | Value.listStr names =>
      match (get_product_version_ids client names).1 with
      | .error e => .error e
      | .ok ids => .ok (upsert release "product_version_ids" (Value.listNat ids))
    | _ => .error (.typeError "product_versions")

/-- `api_data`, `state_machine_rule_set` -> `state_machine_rule_set_id`
step (source lines 306-315): a truthy value is resolved through the
label table of the workflow-rules scraper (a missing label is a
`KeyError`), a falsy one maps to null. -/
def apiStepRuleSet (client : Client) (release : Params) : Except Err Params :=
  match lookup release "state_machine_rule_set" with
  | none => .ok release
  | some v =>
    let release := erase release "state_machine_rule_set"
    if v.truthy then
      match v with
      | Value.str s =>
        match client.ruleSetIds s with
        | some i => .ok (upsert release "state_machine_rule_set_id" (Value.nat i))
        | none => .error (.keyError s)
      | _ => .error (.keyError v.render)
    else .ok (upsert release "state_machine_rule_set_id" Value.null)

/-- `api_data`, `blocker_flags` join step (source lines 316-318): the list
is joined into one comma-separated string in place. -/
def apiStepFlags (release : Params) : Except Err Params :=
  match lookup release "blocker_flags" with
  | none => .ok release
  | some (Value.listStr xs) =>
    .ok (upsert release "blocker_flags" (Value.str (String.intercalate "," xs)))
  | some _ => .error (.typeError "blocker_flags")

/-- `api_data` (source lines 265-322): transform Ansible params into the
JSON payload for POST or PUT, running the translation steps in source
order on a copy of the params and wrapping the result under `release`
plus a passthrough `type` taken from the original params. -/
def api_data (client : Client) (params : Params) : Except Err ApiData :=
  match apiStepProduct client params with
  | .error e => .error e
  | .ok release =>
    match apiStepProgramManager client release with
    | .error e => .error e
    | .ok release =>
      let release := apiStepActive release
      let release := apiStepAcl release
      match apiStepVersions client release with
      | .error e => .error e
      | .ok release =>
        match apiStepRuleSet client release with
        | .error e => .error e
        | .ok release =>
          match apiStepFlags release with
          | .error e => .error e
          | .ok release => .ok { release := release, type := lookup params "type" }

/-- `create_release` (source lines 325-329): translate, then POST; a status
other than 201 is an error.  The second component is the trace of write
calls issued. -/
def create_release (client : Client) (params : Params) :
    Except Err Unit × List WriteCall :=
  match api_data client params with
  | .error e => (.error e, [])
  | .ok data =>
    let call := WriteCall.post "api/v1/releases" data
    if client.postStatus "api/v1/releases" data != 201 then
      (.error (.remoteRejected (client.postStatus "api/v1/releases" data)), [call])
    else (.ok (), [call])

/-- The params-like dict `edit_release` builds from its differences
(source lines 334-337): the new value of each difference, keyed by field. -/
def edit_params (differences : List Difference) : Params :=
  differences.foldl (fun acc d => upsert acc d.1 d.2.2) []

/-- `edit_release` (source lines 332-341): build a params dict from the
differences, translate, then PUT to the id of the release; a status other
than 200 is an error. -/
def edit_release (client : Client) (release_id : Nat)
    (differences : List Difference) : Except Err Unit × List WriteCall :=
  match api_data client (edit_params differences) with
  | .error e => (.error e, [])
  | .ok data =>
    let path := "api/v1/releases/" ++ toString release_id
    let call := WriteCall.put path data
    if client.putStatus path data != 200 then
      (.error (.remoteRejected (client.putStatus path data)), [call])
    else (.ok (), [call])

/-- The `keys_to_copy` argument of `prepare_diff_data` (source lines
350-355). -/
def releaseKeysToCopy : List String :=
  ["pelc_product_version_name", "state_machine_rule_set", "zstream_target_release"]

/-- The `keys_to_omit` argument of `prepare_diff_data` (source lines
356-362). -/
def releaseKeysToOmit : List String := ["is_async", "is_deferred"]

/-- `prepare_diff_data` (source lines 344-363). -/
def prepare_diff_data (before : Option Params) (after : Params) : DiffData :=
  task_diff_data before after releaseKeysToCopy releaseKeysToOmit

/-- `ensure_release`, null stripping (source line 370): drop every
null-valued desired param (null means "unspecified"). -/
def stripNulls (ps : Params) : Params :=
  ps.filter (fun kv => kv.2 != Value.null)

/-- `ensure_release`, enum unset coercion (source lines 372-375): an
empty-string `state_machine_rule_set` is coerced to null in place. -/
def coerceRuleSet (ps : Params) : Params :=
  if lookup ps "state_machine_rule_set" = some (Value.str "") then
    upsert ps "state_machine_rule_set" Value.null
  else ps

/-- The desired-params preprocessing of `ensure_release` (source lines
370-375): strip nulls first, then coerce the rule-set empty string, so the
coerced null is not stripped. -/
def process (ps : Params) : Params := coerceRuleSet (stripNulls ps)

/-- The non-check-mode update action of `ensure_release` (source lines
393-400): force-add the `product_versions` compensating no-op difference
when it is missing (reading the desired value out of the params, a
`KeyError` if absent) and PUT to the id of the release (a `TypeError` if
the fetched id is not a number). -/
def update_write (client : Client) (release params : Params)
    (differences : List Difference) : Except Err Unit × List WriteCall :=
  if (differences.map (fun d => d.1)).contains "product_versions" then
    match lookup release "id" with
    | some (Value.nat release_id) => edit_release client release_id differences
    | _ => (.error (.typeError "id"), [])
  else
    match lookup params "product_versions" with
    | none => (.error (.keyError "product_versions"), [])
    | some pv =>
      match lookup release "id" with
      | some (Value.nat release_id) =>
        edit_release client release_id
          (differences ++ [("product_versions", pv, pv)])
      | _ => (.error (.typeError "id"), [])

/-- `ensure_release` (source lines 366-401): fetch, diff, and create or
update, honouring check mode.  Returns the result (or the raised error)
plus the trace of write calls issued. -/
def ensure_release (client : Client) (params0 : Params) (check_mode : Bool) :
    Except Err Result × List WriteCall :=
  let params := process params0
  match lookup params "name" with
  | none => (.error (.keyError "name"), [])
  | some name =>
    match get_release client name with
    | .error e => (.error e, [])
    | .ok none =>
      let result : Result :=
        { changed := true
          stdout_lines := ["created " ++ name.render]
          diff := some (prepare_diff_data none params) }
      if check_mode then (.ok result, [])
      else
        match create_release client params with
        | (.ok _, w) => (.ok result, w)
        | (.error e, w) => (.error e, w)
    | .ok (some release) =>
      let differences := diff_settings release params
      if differences.isEmpty then
        (.ok { changed := false, stdout_lines := [], diff := none }, [])
      else
        let result : Result :=
          { changed := true
            stdout_lines := describe_changes differences
            diff := some (prepare_diff_data (some release) params) }
        if check_mode then (.ok result, [])
        else
          match update_write client release params differences with
          | (.ok _, w) => (.ok result, w)
          | (.error e, w) => (.error e, w)

/-! ## Dictionary lemmas -/

theorem lookup_cons (kv : String × Value) (rest : Params) (k : String) :
    lookup (kv :: rest) k = if kv.1 = k then some kv.2 else lookup rest k := rfl

theorem lookup_mem {ps : Params} {k : String} {v : Value}
    (h : lookup ps k = some v) : (k, v) ∈ ps := by
  induction ps with
  | nil => simp [lookup] at h
  | cons kv rest ih =>
    rw [lookup_cons] at h
    split at h
    · next heq =>
      cases h
      cases kv with
      | mk k1 v1 =>
        cases heq
        exact List.mem_cons_self _ _
    · exact List.mem_cons_of_mem _ (ih h)

theorem lookup_isSome_of_mem {ps : Params} {k : String} {v : Value}
    (h : (k, v) ∈ ps) : (lookup ps k).isSome := by
  induction ps with
  | nil => simp at h
  | cons kv rest ih =>
    rw [lookup_cons]
    split
    · simp
    · next hne =>
      rcases List.mem_cons.mp h with heq | hmem
      · cases heq; simp at hne
      · exact ih hmem

theorem mem_lookup_of_nodup {ps : Params} (hnd : (ps.map Prod.fst).Nodup)
    {k : String} {v : Value} (h : (k, v) ∈ ps) : lookup ps k = some v := by
  induction ps with
  | nil => simp at h
  | cons kv rest ih =>
    rw [List.map_cons, List.nodup_cons] at hnd
    rw [lookup_cons]
    rcases List.mem_cons.mp h with heq | hmem
    · cases heq; simp
    · split
      · next heq =>
        exact absurd (heq ▸ List.mem_map_of_mem Prod.fst hmem) hnd.1
      · exact ih hnd.2 hmem

theorem lookup_append (ps qs : Params) (k : String) :
    lookup (ps ++ qs) k = ((lookup ps k).or (lookup qs k)) := by
  induction ps with
  | nil => simp [lookup]
  | cons kv rest ih =>
    rw [List.cons_append, lookup_cons, lookup_cons]
    split <;> simp [ih]

theorem lookup_map_set_self {ps : Params} {k : String} (v : Value)
    (hs : (lookup ps k).isSome) :
    lookup (ps.map (fun kv => if kv.1 = k then (k, v) else kv)) k = some v := by
  induction ps with
  | nil => simp [lookup] at hs
  | cons kv rest ih =>
    rw [lookup_cons] at hs
    rw [List.map_cons]
    by_cases hk : kv.1 = k
    · rw [if_pos hk, lookup_cons, if_pos rfl]
    · rw [if_neg hk] at hs
      rw [if_neg hk, lookup_cons, if_neg hk]
      exact ih hs

theorem lookup_map_set_ne (ps : Params) (k : String) (v : Value) {k2 : String}
    (hne : k ≠ k2) :
    lookup (ps.map (fun kv => if kv.1 = k then (k, v) else kv)) k2 = lookup ps k2 := by
  induction ps with
  | nil => rfl
  | cons kv rest ih =>
    rw [List.map_cons]
    by_cases hk : kv.1 = k
    · rw [if_pos hk, lookup_cons, lookup_cons, if_neg hne, if_neg (hk ▸ hne)]
      exact ih
    · rw [if_neg hk, lookup_cons, lookup_cons]
      split
      · rfl
      · exact ih

theorem lookup_upsert_self (ps : Params) (k : String) (v : Value) :
    lookup (upsert ps k v) k = some v := by
  unfold upsert
  split
  · next hs => exact lookup_map_set_self v hs
  · next hs =>
    rw [lookup_append]
    rw [Option.not_isSome_iff_eq_none] at hs
    rw [hs]
    simp [lookup]

theorem lookup_upsert_ne (ps : Params) (k : String) (v : Value) {k2 : String}
    (hne : k ≠ k2) : lookup (upsert ps k v) k2 = lookup ps k2 := by
  unfold upsert
  split
  · exact lookup_map_set_ne ps k v hne
  · rw [lookup_append, lookup_cons]
    simp only [if_neg hne, lookup]
    cases lookup ps k2 <;> rfl

theorem lookup_erase_self (ps : Params) (k : String) :
    lookup (erase ps k) k = none := by
  induction ps with
  | nil => rfl
  | cons kv rest ih =>
    unfold erase at ih ⊢
    rw [List.filter_cons]
    split
    · next hkeep =>
      rw [lookup_cons]
      have : kv.1 ≠ k := by simpa using hkeep
      rw [if_neg this]
      exact ih
    · exact ih

theorem lookup_erase_ne (ps : Params) (k : String) {k2 : String} (hne : k ≠ k2) :
    lookup (erase ps k) k2 = lookup ps k2 := by
  induction ps with
  | nil => rfl
  | cons kv rest ih =>
    unfold erase at ih ⊢
    rw [List.filter_cons]
    split
    · rw [lookup_cons, lookup_cons]
      split <;> [rfl; exact ih]
    · next hdrop =>
      have hk : kv.1 = k := by simpa using hdrop
      rw [lookup_cons, if_neg (hk ▸ hne)]
      exact ih

theorem lookup_stripNulls {ps : Params} {k : String} {v : Value}
    (h : lookup ps k = some v) (hv : v ≠ Value.null) :
    lookup (stripNulls ps) k = some v := by
  induction ps with
  | nil => simp [lookup] at h
  | cons kv rest ih =>
    rw [lookup_cons] at h
    unfold stripNulls at ih ⊢
    rw [List.filter_cons]
    split at h
    · next heq =>
      cases h
      have : (kv.2 != Value.null) = true := by simpa using hv
      rw [if_pos this, lookup_cons, if_pos heq]
    · next hne =>
      split
      · rw [lookup_cons, if_neg hne]
        exact ih h
      · exact ih h

theorem stripNulls_sublist (ps : Params) : (stripNulls ps).Sublist ps :=
  List.filter_sublist ps

theorem lookup_stripNulls_none {ps : Params} (hnd : (ps.map Prod.fst).Nodup)
    {k : String} (h : lookup ps k = some Value.null) :
    lookup (stripNulls ps) k = none := by
  cases hs : lookup (stripNulls ps) k with
  | none => rfl
  | some v =>
    exfalso
    have hmem := lookup_mem hs
    have hmem2 := List.mem_filter.mp hmem
    have := mem_lookup_of_nodup hnd hmem2.1
    rw [h] at this
    cases this
    simpa using hmem2.2

theorem lookup_upsert_isSome_mono {ps : Params} {k : String}
    (hs : (lookup ps k).isSome) (k2 : String) (v : Value) :
    (lookup (upsert ps k2 v) k).isSome := by
  by_cases h : k2 = k
  · subst h
    rw [lookup_upsert_self]
    rfl
  · rw [lookup_upsert_ne _ _ _ h]
    exact hs

theorem lookup_edit_params_isSome {ds : List Difference} {k : String}
    (h : ∃ d ∈ ds, d.1 = k) : (lookup (edit_params ds) k).isSome := by
  unfold edit_params
  suffices hgen : ∀ acc : Params,
      ((∃ d ∈ ds, d.1 = k) ∨ (lookup acc k).isSome) →
      (lookup (ds.foldl (fun acc d => upsert acc d.1 d.2.2) acc) k).isSome from
    hgen [] (Or.inl h)
  clear h
  induction ds with
  | nil =>
    intro acc h
    rcases h with h | h
    · simp at h
    · exact h
  | cons d rest ih =>
    intro acc h
    rw [List.foldl_cons]
    rcases h with h | h
    · rcases (List.exists_mem_cons_iff _ _ _).mp h with hd | hrest
      · refine ih _ (Or.inr ?_)
        rw [hd, lookup_upsert_self]
        rfl
      · exact ih _ (Or.inl hrest)
    · exact ih _ (Or.inr (lookup_upsert_isSome_mono h _ _))

/-! ## Translation-step lemmas -/

theorem apiStepProduct_lookup {c : Client} {ps ps' : Params} {k : String}
    (h : apiStepProduct c ps = .ok ps')
    (h1 : k ≠ "product") (h2 : k ≠ "product_id") :
    lookup ps' k = lookup ps k := by
  unfold apiStepProduct at h
  split at h
  · cases h; rfl
  · split at h
    · cases h
      exact lookup_erase_ne _ _ (Ne.symm h1)
    · split at h
      · cases h
      · cases h
        rw [lookup_upsert_ne _ _ _ (Ne.symm h2)]
        exact lookup_erase_ne _ _ (Ne.symm h1)

theorem apiStepProgramManager_lookup {c : Client} {ps ps' : Params} {k : String}
    (h : apiStepProgramManager c ps = .ok ps')
    (h1 : k ≠ "program_manager") (h2 : k ≠ "program_manager_id") :
    lookup ps' k = lookup ps k := by
  unfold apiStepProgramManager at h
  split at h
  · cases h; rfl
  · split at h
    · cases h
    · cases h
    · cases h
      rw [lookup_upsert_ne _ _ _ (Ne.symm h2)]
      exact lookup_erase_ne _ _ (Ne.symm h1)

theorem apiStepActive_lookup (ps : Params) {k : String}
    (h1 : k ≠ "active") (h2 : k ≠ "isactive") :
    lookup (apiStepActive ps) k = lookup ps k := by
  unfold apiStepActive
  split
  · rfl
  · rw [lookup_upsert_ne _ _ _ (Ne.symm h2)]
    exact lookup_erase_ne _ _ (Ne.symm h1)

theorem apiStepAcl_lookup (ps : Params) {k : String}
    (h1 : k ≠ "supports_component_acl") (h2 : k ≠ "disable_acl") :
    lookup (apiStepAcl ps) k = lookup ps k := by
  unfold apiStepAcl
  split
  · rfl
  · rw [lookup_upsert_ne _ _ _ (Ne.symm h2)]
    exact lookup_erase_ne _ _ (Ne.symm h1)

theorem apiStepVersions_puts {c : Client} {ps ps' : Params}
    (h : apiStepVersions c ps = .ok ps')
    (hs : (lookup ps "product_versions").isSome) :
    ∃ ids, lookup ps' "product_version_ids" = some (Value.listNat ids) := by
  unfold apiStepVersions at h
  split at h
  · next heq => rw [heq] at hs; cases hs
  · split at h
    · split at h
      · cases h
      · cases h
        next ids _ =>
        exact ⟨ids, lookup_upsert_self _ _ _⟩
    · cases h

theorem apiStepRuleSet_lookup {c : Client} {ps ps' : Params} {k : String}
    (h : apiStepRuleSet c ps = .ok ps')
    (h1 : k ≠ "state_machine_rule_set") (h2 : k ≠ "state_machine_rule_set_id") :
    lookup ps' k = lookup ps k := by
  unfold apiStepRuleSet at h
  split at h
  · cases h; rfl
  · split at h
    · split at h
      · split at h
        · cases h
          rw [lookup_upsert_ne _ _ _ (Ne.symm h2)]
          exact lookup_erase_ne _ _ (Ne.symm h1)
        · cases h
      · cases h
    · cases h
      rw [lookup_upsert_ne _ _ _ (Ne.symm h2)]
      exact lookup_erase_ne _ _ (Ne.symm h1)

theorem apiStepFlags_lookup {ps ps' : Params} {k : String}
    (h : apiStepFlags ps = .ok ps')
    (h1 : k ≠ "blocker_flags") :
    lookup ps' k = lookup ps k := by
  unfold apiStepFlags at h
  split at h
  · cases h; rfl
  · cases h
    rw [lookup_upsert_ne _ _ _ (Ne.symm h1)]
  · cases h

theorem api_data_version_ids {c : Client} {params : Params} {data : ApiData}
    (h : api_data c params = .ok data)
    (hs : (lookup params "product_versions").isSome) :
    ∃ ids, lookup data.release "product_version_ids" = some (Value.listNat ids) := by
  unfold api_data at h
  cases h1 : apiStepProduct c params with
  | error e =>
    simp only [h1] at h
    exact Except.noConfusion h
  | ok r1 =>
    simp only [h1] at h
    cases h2 : apiStepProgramManager c r1 with
    | error e =>
    simp only [h2] at h
    exact Except.noConfusion h
    | ok r2 =>
      simp only [h2] at h
      cases h5 : apiStepVersions c (apiStepAcl (apiStepActive r2)) with
      | error e =>
    simp only [h5] at h
    exact Except.noConfusion h
      | ok r5 =>
        simp only [h5] at h
        cases h6 : apiStepRuleSet c r5 with
        | error e =>
    simp only [h6] at h
    exact Except.noConfusion h
        | ok r6 =>
          simp only [h6] at h
          cases h7 : apiStepFlags r6 with
          | error e =>
    simp only [h7] at h
    exact Except.noConfusion h
          | ok r7 =>
            simp only [h7, Except.ok.injEq] at h
            subst h
            have hs4 : (lookup (apiStepAcl (apiStepActive r2)) "product_versions").isSome := by
              rw [apiStepAcl_lookup _ (by decide) (by decide),
                apiStepActive_lookup _ (by decide) (by decide),
                apiStepProgramManager_lookup h2 (by decide) (by decide),
                apiStepProduct_lookup h1 (by decide) (by decide)]
              exact hs
            obtain ⟨ids, hids⟩ := apiStepVersions_puts h5 hs4
            refine ⟨ids, ?_⟩
            rw [apiStepFlags_lookup h7 (by decide),
              apiStepRuleSet_lookup h6 (by decide) (by decide)]
            exact hids

/-! ## Write-trace lemmas -/

theorem create_release_no_put (c : Client) (p : Params) {path : String}
    {data : ApiData} : WriteCall.put path data ∉ (create_release c p).2 := by
  unfold create_release
  split
  · simp
  · split <;> simp

theorem edit_release_put {c : Client} {rid : Nat} {ds : List Difference}
    {path : String} {data : ApiData}
    (h : WriteCall.put path data ∈ (edit_release c rid ds).2) :
    api_data c (edit_params ds) = .ok data := by
  unfold edit_release at h
  cases ha : api_data c (edit_params ds) with
  | error e => simp only [ha] at h; simp at h
  | ok d =>
    simp only [ha] at h
    split at h <;>
    · simp only [List.mem_singleton, WriteCall.put.injEq] at h
      rw [h.2]

theorem update_write_put {c : Client} {rel params : Params}
    {ds : List Difference} {path : String} {data : ApiData}
    (h : WriteCall.put path data ∈ (update_write c rel params ds).2) :
    ∃ ds2, (∃ d ∈ ds2, d.1 = "product_versions") ∧
      api_data c (edit_params ds2) = .ok data := by
  unfold update_write at h
  split at h
  · next hc =>
    split at h
    · refine ⟨ds, ?_, edit_release_put h⟩
      have hm : "product_versions" ∈ ds.map (fun d => d.1) := by
        simpa [List.contains_iff_exists_mem_beq] using hc
      obtain ⟨d, hd, hdk⟩ := List.mem_map.mp hm
      exact ⟨d, hd, hdk⟩
    · simp at h
  · split at h
    · simp at h
    · next pv _ =>
      split at h
      · refine ⟨ds ++ [("product_versions", pv, pv)], ?_, edit_release_put h⟩
        exact ⟨("product_versions", pv, pv), by simp, rfl⟩
      · simp at h

/-! ## Check-mode lemmas -/

theorem ensure_release_check_no_writes (c : Client) (p : Params) :
    (ensure_release c p true).2 = [] := by
  simp only [ensure_release]
  split
  · rfl
  · split
    · rfl
    · simp
    · split
      · rfl
      · simp

theorem ensure_release_false_ok {c : Client} {p : Params} {r : Result}
    {w : List WriteCall} (h : ensure_release c p false = (.ok r, w)) :
    ensure_release c p true = (.ok r, []) := by
  simp only [ensure_release] at h ⊢
  cases hn : lookup (process p) "name" with
  | none => simp only [hn] at h; simp at h
  | some name =>
    simp only [hn] at h ⊢
    cases hg : get_release c name with
    | error e => simp only [hg] at h; simp at h
    | ok o =>
      simp only [hg] at h ⊢
      cases o with
      | none =>
        simp only [Bool.false_eq_true, if_false, if_true] at h ⊢
        rcases hc : create_release c (process p) with ⟨cr, w2⟩
        rw [hc] at h
        cases cr with
        | ok u =>
          simp only [Prod.mk.injEq, Except.ok.injEq] at h
          rw [h.1]
        | error e => simp at h
      | some rel =>
        by_cases hd : (diff_settings rel (process p)).isEmpty
        · simp only [hd, if_true] at h ⊢
          simp only [Prod.mk.injEq] at h
          rw [h.1]
        · simp only [hd, Bool.false_eq_true, if_false, if_true] at h ⊢
          rcases hu : update_write c rel (process p) (diff_settings rel (process p))
            with ⟨cr, w2⟩
          rw [hu] at h
          cases cr with
          | ok u =>
            simp only [Prod.mk.injEq, Except.ok.injEq] at h
            rw [h.1]
          | error e => simp at h

/-! ## Concrete scenarios (used by the witnesses and counterexample) -/

/-- A server-side release as returned by the list endpoint. -/
def wRaw : RawRelease :=
  { id := 5
    attributes := [("name", .str "rhceph-4.0"), ("description", .str "Ceph"),
                   ("type", .str "Zstream"), ("is_active", .bool true),
                   ("ship_date", .null), ("enabled", .bool true)]
    product := some "RHCEPH"
    program_manager := none
    state_machine_rule_set := none
    brew_tags := []
    product_versions := [⟨929, "RHCEPH-4.0-RHEL-8"⟩] }

/-- A client whose remote state holds exactly `wRaw` under the name
`rhceph-4.0`, with one known product, user, product version and rule set. -/
def wClient : Client :=
  { releases := fun s => if s = "rhceph-4.0" then [wRaw] else []
    productIds := fun s => if s = "RHCEPH" then some 104 else none
    userIds := fun s => if s = "pm@redhat.com" then some 77 else none
    productVersionIds := fun s => if s = "RHCEPH-4.0-RHEL-8" then some 929 else none
    ruleSetIds := fun s => if s = "Unrestricted" then some 2 else none
    postStatus := fun _ _ => 201
    putStatus := fun _ _ => 200 }

/-- Desired params equal to the remote state of `wRaw`. -/
def wParamsSame : Params :=
  [("name", .str "rhceph-4.0"), ("description", .str "Ceph"),
   ("product", .str "RHCEPH"), ("active", .bool true),
   ("product_versions", .listStr ["RHCEPH-4.0-RHEL-8"]),
   ("program_manager", .null)]

/-- The normalized form of `wRaw` as `get_release` returns it. -/
def wRelSame : Params :=
  [("id", .nat 5), ("name", .str "rhceph-4.0"), ("description", .str "Ceph"),
   ("type", .str "Zstream"), ("ship_date", .null), ("enabled", .bool true),
   ("product", .str "RHCEPH"), ("program_manager", .null),
   ("state_machine_rule_set", .null), ("brew_tags", .listPV []),
   ("product_versions", .listStr ["RHCEPH-4.0-RHEL-8"]),
   ("active", .bool true)]

/-- Desired params flipping `active` on the remote state of `wRaw`. -/
def wParamsFlip : Params :=
  [("name", .str "rhceph-4.0"), ("active", .bool false),
   ("product_versions", .listStr ["RHCEPH-4.0-RHEL-8"])]

/-- The report `ensure_release` computes for `wParamsFlip` against
`wClient`. -/
def wResultFlip : Result :=
  { changed := true
    stdout_lines := ["changing active from True to False"]
    diff := some { before := wRelSame
                   after := [("name", .str "rhceph-4.0"), ("active", .bool false),
                             ("product_versions", .listStr ["RHCEPH-4.0-RHEL-8"]),
                             ("state_machine_rule_set", .null)] } }

/-- The single compensated PUT issued for `wParamsFlip` against `wClient`. -/
def wWritesFlip : List WriteCall :=
  [WriteCall.put "api/v1/releases/5"
    { release := [("isactive", .bool false),
                  ("product_version_ids", .listNat [929])]
      type := none }]

/-! ## Claims -/

/-- C1: Idempotence of reconciliation: when the fetched remote state agrees
with every field of the processed desired params (the situation immediately
after a successful run whose change the server applied), `ensure_release`
returns changed=false with empty stdout_lines and no diff, and issues no
POST or PUT, in or out of check mode. -/
theorem ensure_release_idempotent (client : Client) (params : Params)
    (check_mode : Bool) (name : Value) (rel : Params)
    (hname : lookup (process params) "name" = some name)
    (hrel : get_release client name = .ok (some rel))
    (hagree : ∀ kv ∈ process params, lookup rel kv.1 = some kv.2) :
    ensure_release client params check_mode =
      (.ok { changed := false, stdout_lines := [], diff := none }, []) := by
  have hdiff : diff_settings rel (process params) = [] := by
    unfold diff_settings
    rw [List.filterMap_eq_nil_iff]
    intro kv hkv
    simp [hagree kv hkv]
  simp only [ensure_release, hname, hrel, hdiff]
  simp

/-- Witness for C1: the desired state `wParamsSame` equals the remote state
held by `wClient`, and the second invocation reports no change and writes
nothing. -/
theorem ensure_release_idempotent_witness :
    ensure_release wClient wParamsSame true =
      (.ok { changed := false, stdout_lines := [], diff := none }, []) :=
  ensure_release_idempotent wClient wParamsSame true (.str "rhceph-4.0") wRelSame
    (by decide) (by decide) (by decide)

/-- C2: Preview safety: in check mode `ensure_release` never issues a POST
or PUT, and whenever the non-preview run returns a result, the check-mode
run returns exactly the same result (same changed flag, stdout_lines and
diff). -/
theorem check_mode_preview_safe (client : Client) (params : Params) :
    (ensure_release client params true).2 = [] ∧
    ∀ r w, ensure_release client params false = (.ok r, w) →
      ensure_release client params true = (.ok r, []) :=
  ⟨ensure_release_check_no_writes client params,
   fun _ _ h => ensure_release_false_ok h⟩

/-- Witness for C2: flipping `active` against `wClient` succeeds without
check mode, and the check-mode run reports the identical result with no
writes. -/
theorem check_mode_preview_safe_witness :
    ensure_release wClient wParamsFlip true = (.ok wResultFlip, []) :=
  (check_mode_preview_safe wClient wParamsFlip).2 wResultFlip wWritesFlip (by decide)

/-- C9: Check-mode noninterference on the reported result: whenever both
runs return a result, the results (changed flag, stdout_lines, diff) are
identical, and the check-mode run issued no write calls. -/
theorem check_mode_noninterference (client : Client) (params : Params)
    (r₁ r₂ : Result) (w₁ w₂ : List WriteCall)
    (h₁ : ensure_release client params false = (.ok r₁, w₁))
    (h₂ : ensure_release client params true = (.ok r₂, w₂)) :
    r₁ = r₂ ∧ w₂ = [] := by
  have h3 := ensure_release_false_ok h₁
  rw [h₂] at h3
  simp only [Prod.mk.injEq, Except.ok.injEq] at h3
  exact ⟨h3.1.symm, h3.2⟩

/-- Witness for C9: the two runs on the `active` flip scenario report the
same result and check mode writes nothing. -/
theorem check_mode_noninterference_witness :
    wResultFlip = wResultFlip ∧ ([] : List WriteCall) = [] :=
  check_mode_noninterference wClient wParamsFlip wResultFlip wResultFlip
    wWritesFlip [] (by decide) (by decide)

/-- C5: Write atomicity via resolution-before-write ordering: in both
`create_release` and `edit_release` the whole `api_data` translation
(including the program-manager resolution) runs before the POST or PUT, so
a translation or resolution failure propagates with zero write calls
issued. -/
theorem resolution_before_write (client : Client) (e : Err) :
    (∀ params, api_data client params = .error e →
      create_release client params = (.error e, [])) ∧
    (∀ release_id differences,
      api_data client (edit_params differences) = .error e →
      edit_release client release_id differences = (.error e, [])) := by
  constructor
  · intro p h
    unfold create_release
    rw [h]
  · intro rid ds h
    unfold edit_release
    rw [h]

/-- Desired params naming a program manager that does not exist on the
remote service. -/
def wParamsGhost : Params :=
  [("name", .str "rhceph-4.0"), ("program_manager", .str "ghost@redhat.com")]

/-- A difference list whose new program manager does not exist remotely. -/
def wDiffsGhost : List Difference :=
  [("program_manager", Value.null, .str "ghost@redhat.com")]

/-- Witness for C5: a missing program manager aborts both the create and
the update with a `ProgramManagerNotFound` error and an empty write
trace. -/
theorem resolution_before_write_witness :
    create_release wClient wParamsGhost =
      (.error (.programManagerNotFound "ghost@redhat.com"), []) ∧
    edit_release wClient 5 wDiffsGhost =
      (.error (.programManagerNotFound "ghost@redhat.com"), []) :=
  ⟨(resolution_before_write wClient
      (.programManagerNotFound "ghost@redhat.com")).1 wParamsGhost (by decide),
   (resolution_before_write wClient
      (.programManagerNotFound "ghost@redhat.com")).2 5 wDiffsGhost (by decide)⟩

/-- C6: Normalizer existence outcomes: an empty name-filtered collection
yields `none`, more than one element raises the ambiguous-resource
`ValueError`, and exactly one element yields the normalized resource. -/
theorem get_release_existence (client : Client) (name : Value) :
    (client.releases name.render = [] → get_release client name = .ok none) ∧
    (∀ rd, client.releases name.render = [rd] →
      get_release client name = (normalize_release rd).map some) ∧
    (2 ≤ (client.releases name.render).length →
      get_release client name =
        .error (.valueError ("multiple " ++ name.render ++ " releases found"))) := by
  refine ⟨?_, ?_, ?_⟩
  · intro h
    unfold get_release
    rw [h]
  · intro rd h
    unfold get_release
    rw [h]
  · intro h
    unfold get_release
    rcases hc : client.releases name.render with _ | ⟨a, _ | ⟨b, t⟩⟩
    · rw [hc] at h; simp at h
    · rw [hc] at h; simp at h
    · rfl

/-- A client answering every release list query with two results. -/
def wClientMulti : Client := { wClient with releases := fun _ => [wRaw, wRaw] }

/-- Witness for C6: the ambiguous, absent and single-result cases on
concrete clients. -/
theorem get_release_existence_witness :
    get_release wClientMulti (.str "x") =
      .error (.valueError "multiple x releases found") ∧
    get_release wClient (.str "nope") = .ok none ∧
    get_release wClient (.str "rhceph-4.0") = (normalize_release wRaw).map some :=
  ⟨(get_release_existence wClientMulti (.str "x")).2.2 (by decide),
   (get_release_existence wClient (.str "nope")).1 (by decide),
   (get_release_existence wClient (.str "rhceph-4.0")).2.1 wRaw (by decide)⟩

/-- C10: The compensating no-op Difference is invisible in the reported
result: whatever `ensure_release` reports in a successful non-check run,
its stdout_lines are `describe_changes` of the uncompensated difference
list and its diff is `prepare_diff_data` of the fetched state and the
processed params — both computed before the `(product_versions, desired,
desired)` entry is appended. -/
theorem compensation_invisible_in_report (client : Client) (params : Params)
    (name : Value) (rel : Params) (r : Result) (w : List WriteCall)
    (hname : lookup (process params) "name" = some name)
    (hrel : get_release client name = .ok (some rel))
    (h : ensure_release client params false = (.ok r, w)) :
    r.stdout_lines = describe_changes (diff_settings rel (process params)) ∧
    r.diff = (if diff_settings rel (process params) = [] then none
              else some (prepare_diff_data (some rel) (process params))) := by
  simp only [ensure_release, hname, hrel] at h
  by_cases hd : (diff_settings rel (process params)).isEmpty
  · rw [List.isEmpty_iff] at hd
    simp only [hd, List.isEmpty_nil, if_true] at h
    simp only [Prod.mk.injEq, Except.ok.injEq] at h
    rw [← h.1, hd]
    simp [describe_changes]
  · have hd2 : diff_settings rel (process params) ≠ [] := fun hnil =>
      hd (by rw [hnil]; rfl)
    simp only [hd, Bool.false_eq_true, if_false] at h
    rcases hu : update_write client rel (process params) (diff_settings rel (process params))
      with ⟨cr, w2⟩
    rw [hu] at h
    cases cr with
    | ok u =>
      simp only [Prod.mk.injEq, Except.ok.injEq] at h
      rw [← h.1]
      simp [hd2]
    | error e => simp at h

/-- Witness for C10: the reported lines for the `active` flip mention only
the real `active` difference, although the issued payload was
compensated. -/
theorem compensation_invisible_in_report_witness :
    wResultFlip.stdout_lines =
      describe_changes (diff_settings wRelSame (process wParamsFlip)) ∧
    wResultFlip.diff =
      (if diff_settings wRelSame (process wParamsFlip) = [] then none
       else some (prepare_diff_data (some wRelSame) (process wParamsFlip))) :=
  compensation_invisible_in_report wClient wParamsFlip (.str "rhceph-4.0")
    wRelSame wResultFlip wWritesFlip (by decide) (by decide) (by decide)

/-- C3: Enum unset convention: inside `ensure_release`, an empty-string
desired `state_machine_rule_set` survives null stripping and is then
coerced to null, so it stays managed and diffs to `(field, current, null)`
whenever the current value is non-null; a null-valued (omitted) desired
value is stripped and produces no difference at all. -/
theorem rule_set_unset_convention (params rel : Params) (cur : Value) :
    (lookup params "state_machine_rule_set" = some (Value.str "") →
      lookup (process params) "state_machine_rule_set" = some Value.null ∧
      (lookup rel "state_machine_rule_set" = some cur → cur ≠ Value.null →
        ("state_machine_rule_set", cur, Value.null) ∈
          diff_settings rel (process params))) ∧
    ((params.map Prod.fst).Nodup →
      lookup params "state_machine_rule_set" = some Value.null →
      ∀ old new, ("state_machine_rule_set", old, new) ∉
        diff_settings rel (process params)) := by
  constructor
  · intro h
    have hstrip : lookup (stripNulls params) "state_machine_rule_set" =
        some (Value.str "") := lookup_stripNulls h (by decide)
    have hproc : lookup (process params) "state_machine_rule_set" =
        some Value.null := by
      unfold process coerceRuleSet
      rw [if_pos hstrip]
      exact lookup_upsert_self _ _ _
    refine ⟨hproc, fun hcur hne => ?_⟩
    have hmem : ("state_machine_rule_set", Value.null) ∈ process params :=
      lookup_mem hproc
    unfold diff_settings
    rw [List.mem_filterMap]
    refine ⟨("state_machine_rule_set", Value.null), hmem, ?_⟩
    simp [hcur, hne]
  · intro hnd h old new hmem
    have hnone : lookup (process params) "state_machine_rule_set" = none := by
      have hs : lookup (stripNulls params) "state_machine_rule_set" = none :=
        lookup_stripNulls_none hnd h
      unfold process coerceRuleSet
      rw [hs]
      simp [hs]
    unfold diff_settings at hmem
    rw [List.mem_filterMap] at hmem
    obtain ⟨kv, hkv, heq⟩ := hmem
    dsimp only at heq
    split at heq
    · cases heq
    · simp only [Option.some.injEq, Prod.mk.injEq] at heq
      have hsome : (lookup (process params) kv.1).isSome :=
        lookup_isSome_of_mem (by simpa using hkv)
      rw [heq.1, hnone] at hsome
      cases hsome

/-- Desired params with an explicit empty-string rule set. -/
def wParamsUnset : Params :=
  [("name", .str "rhceph-4.0"), ("state_machine_rule_set", .str "")]

/-- A current state whose rule set is non-null. -/
def wRelUnres : Params := [("state_machine_rule_set", .str "Unrestricted")]

/-- Desired params omitting the rule set (a null value, as Ansible
defaults it). -/
def wParamsNullSet : Params :=
  [("name", .str "rhceph-4.0"), ("state_machine_rule_set", .null)]

/-- Witness for C3: against a current `Unrestricted` rule set, the
empty-string desired value yields the difference setting the field to
null, while the omitted (null) desired value yields no difference. -/
theorem rule_set_unset_convention_witness :
    (lookup (process wParamsUnset) "state_machine_rule_set" = some Value.null ∧
     ("state_machine_rule_set", Value.str "Unrestricted", Value.null) ∈
       diff_settings wRelUnres (process wParamsUnset)) ∧
    ("state_machine_rule_set", Value.str "Unrestricted", Value.null) ∉
      diff_settings wRelUnres (process wParamsNullSet) :=
  ⟨(fun h => ⟨h.1, h.2 (by decide) (by decide)⟩)
    ((rule_set_unset_convention wParamsUnset wRelUnres
      (.str "Unrestricted")).1 (by decide)),
   (rule_set_unset_convention wParamsNullSet wRelUnres
      (.str "Unrestricted")).2 (by decide) (by decide)
      (Value.str "Unrestricted") Value.null⟩

/-- C4: Version-list compensation: every PUT payload `ensure_release`
issues carries a `product_version_ids` entry — when the computed
differences already contain `product_versions` it is translated from them,
and otherwise the forced no-op `(product_versions, desired, desired)`
difference puts it there. -/
theorem update_payload_has_version_ids (client : Client) (params : Params)
    (check_mode : Bool) (res : Except Err Result) (w : List WriteCall)
    (path : String) (data : ApiData)
    (h : ensure_release client params check_mode = (res, w))
    (hw : WriteCall.put path data ∈ w) :
    ∃ ids, lookup data.release "product_version_ids" =
      some (Value.listNat ids) := by
  cases check_mode with
  | true =>
    have h0 := ensure_release_check_no_writes client params
    rw [h] at h0
    simp only at h0
    rw [h0] at hw
    cases hw
  | false =>
    simp only [ensure_release] at h
    cases hn : lookup (process params) "name" with
    | none =>
      rw [hn] at h
      cases h
      cases hw
    | some name =>
      simp only [hn] at h
      cases hg : get_release client name with
      | error e =>
        simp only [hg] at h
        cases h
        cases hw
      | ok o =>
        simp only [hg] at h
        cases o with
        | none =>
          simp only [Bool.false_eq_true, if_false] at h
          rcases hc : create_release client (process params) with ⟨cr, w2⟩
          rw [hc] at h
          have hnp := @create_release_no_put client (process params) path data
          rw [hc] at hnp
          cases cr with
          | ok u => cases h; exact absurd hw hnp
          | error e => cases h; exact absurd hw hnp
        | some rel =>
          by_cases hd : (diff_settings rel (process params)).isEmpty
          · simp only [hd, if_true] at h
            cases h
            cases hw
          · simp only [hd, Bool.false_eq_true, if_false] at h
            rcases hu : update_write client rel (process params)
              (diff_settings rel (process params)) with ⟨cr, w2⟩
            rw [hu] at h
            have hw2 : WriteCall.put path data ∈
                (update_write client rel (process params)
                  (diff_settings rel (process params))).2 := by
              rw [hu]
              cases cr with
              | ok u => cases h; exact hw
              | error e => cases h; exact hw
            obtain ⟨ds2, hkey, hok⟩ := update_write_put hw2
            exact api_data_version_ids hok (lookup_edit_params_isSome hkey)

/-- The payload of the compensated PUT issued for `wParamsFlip`. -/
def wDataFlip : ApiData :=
  { release := [("isactive", .bool false), ("product_version_ids", .listNat [929])]
    type := none }

/-- Witness for C4: the PUT issued for the `active` flip carries the
compensated `product_version_ids`. -/
theorem update_payload_has_version_ids_witness :
    ∃ ids, lookup wDataFlip.release "product_version_ids" =
      some (Value.listNat ids) :=
  update_payload_has_version_ids wClient wParamsFlip false (.ok wResultFlip)
    [WriteCall.put "api/v1/releases/5" wDataFlip] "api/v1/releases/5" wDataFlip
    (by decide) (by simp)

/-- C7: Version resolver ordering and failure: on success the returned id
list corresponds pointwise (and in order) to the input names with one
lookup issued per name, and on failure the error carries the path of the
first unresolvable name, every earlier name resolved, and the issued
lookups stop at the failing name — no partial result is returned. -/
theorem version_resolver_spec (client : Client) (names : List String) :
    (∀ ids trace, get_product_version_ids client names = (.ok ids, trace) →
      List.Forall₂ (fun n i => client.productVersionIds n = some i) names ids ∧
      trace = names.map pvPath) ∧
    (∀ e trace, get_product_version_ids client names = (.error e, trace) →
      ∃ pre fail post, names = pre ++ fail :: post ∧
        (∀ m ∈ pre, (client.productVersionIds m).isSome) ∧
        client.productVersionIds fail = none ∧
        e = Err.httpError (pvPath fail) ∧
        trace = pre.map pvPath ++ [pvPath fail]) := by
  induction names with
  | nil =>
    constructor
    · intro ids trace h
      simp only [get_product_version_ids, Prod.mk.injEq, Except.ok.injEq] at h
      rw [← h.1, ← h.2]
      exact ⟨List.Forall₂.nil, rfl⟩
    · intro e trace h
      simp only [get_product_version_ids, Prod.mk.injEq] at h
      exact absurd h.1 (by simp)
  | cons name rest ih =>
    constructor
    · intro ids trace h
      simp only [get_product_version_ids] at h
      cases hc : client.productVersionIds name with
      | none =>
        rw [hc] at h
        simp only [Prod.mk.injEq] at h
        exact absurd h.1 (by simp)
      | some i =>
        rw [hc] at h
        rcases hr : get_product_version_ids client rest with ⟨r, t⟩
        rw [hr] at h
        cases r with
        | error e0 =>
          simp only [Except.map, Prod.mk.injEq] at h
          exact absurd h.1 (by simp)
        | ok ids0 =>
          simp only [Except.map, Prod.mk.injEq, Except.ok.injEq] at h
          obtain ⟨hf, ht⟩ := ih.1 ids0 t hr
          rw [← h.1, ← h.2, ht, List.map_cons]
          exact ⟨List.Forall₂.cons hc hf, rfl⟩
    · intro e trace h
      simp only [get_product_version_ids] at h
      cases hc : client.productVersionIds name with
      | none =>
        rw [hc] at h
        simp only [Prod.mk.injEq, Except.error.injEq] at h
        refine ⟨[], name, rest, rfl, by simp, hc, h.1.symm, ?_⟩
        rw [← h.2]
        simp
      | some i =>
        rw [hc] at h
        rcases hr : get_product_version_ids client rest with ⟨r, t⟩
        rw [hr] at h
        cases r with
        | ok ids0 =>
          simp only [Except.map, Prod.mk.injEq] at h
          exact absurd h.1 (by simp)
        | error e0 =>
          simp only [Except.map, Prod.mk.injEq, Except.error.injEq] at h
          obtain ⟨pre, fail, post, hsplit, hpre, hfail, herr, htrace⟩ :=
            ih.2 e0 t hr
          refine ⟨name :: pre, fail, post, by rw [hsplit]; rfl, ?_, hfail,
            by rw [← h.1, herr], ?_⟩
          · intro m hm
            rcases List.mem_cons.mp hm with hm1 | hm2
            · rw [hm1, hc]; rfl
            · exact hpre m hm2
          · rw [← h.2, htrace]
            simp

/-- Witness for C7: one known name resolves in order, and an unknown name
fails carrying its lookup path. -/
theorem version_resolver_spec_witness :
    (List.Forall₂ (fun n i => wClient.productVersionIds n = some i)
      ["RHCEPH-4.0-RHEL-8"] [929] ∧
     ["product_versions/RHCEPH-4.0-RHEL-8.json"] =
      ["RHCEPH-4.0-RHEL-8"].map pvPath) ∧
    (∃ pre fail post, ["missing"] = pre ++ fail :: post ∧
      (∀ m ∈ pre, (wClient.productVersionIds m).isSome) ∧
      wClient.productVersionIds fail = none ∧
      Err.httpError (pvPath "missing") = Err.httpError (pvPath fail) ∧
      [pvPath "missing"] = pre.map pvPath ++ [pvPath fail]) :=
  ⟨(version_resolver_spec wClient ["RHCEPH-4.0-RHEL-8"]).1 [929]
    ["product_versions/RHCEPH-4.0-RHEL-8.json"] (by decide),
   (version_resolver_spec wClient ["missing"]).2
    (Err.httpError (pvPath "missing")) [pvPath "missing"] (by decide)⟩

/-- What `get_release` puts under `product_versions` and `brew_tags`
whenever normalization succeeds: the version names are extracted, but the
brew-tags relationship payload is copied verbatim. -/
theorem normalize_release_lists {rd : RawRelease} {rel : Params}
    (h : normalize_release rd = .ok rel) :
    lookup rel "product_versions" =
      some (Value.listStr (rd.product_versions.map PV.name)) ∧
    lookup rel "brew_tags" = some (Value.listPV rd.brew_tags) := by
  have base_pv : ∀ active : Value,
      lookup (normalize_active rd active) "product_versions" =
        some (Value.listStr (rd.product_versions.map PV.name)) := by
    intro active
    unfold normalize_active normalize_base
    rw [lookup_upsert_ne _ _ _ (by decide), lookup_erase_ne _ _ (by decide),
      lookup_upsert_self]
  have base_bt : ∀ active : Value,
      lookup (normalize_active rd active) "brew_tags" =
        some (Value.listPV rd.brew_tags) := by
    intro active
    unfold normalize_active normalize_base
    rw [lookup_upsert_ne _ _ _ (by decide), lookup_erase_ne _ _ (by decide),
      lookup_upsert_ne _ _ _ (by decide), lookup_upsert_self]
  unfold normalize_release at h
  split at h
  · exact Except.noConfusion h
  · split at h
    · exact Except.noConfusion h
    · injection h with h2
      subst h2
      exact ⟨base_pv _, base_bt _⟩
    all_goals
      first
      | exact Except.noConfusion h
      | (injection h with h2
         subst h2
         exact ⟨by rw [lookup_upsert_ne _ _ _ (by decide)]; exact base_pv _,
                by rw [lookup_upsert_ne _ _ _ (by decide)]; exact base_bt _⟩)

/-- A raw release whose brew-tags relationship holds one object with
display name `ceph-tag`. -/
def cxRaw : RawRelease :=
  { id := 3
    attributes := [("name", .str "r1"), ("is_active", .bool true),
                   ("ship_date", .null)]
    product := none
    program_manager := none
    state_machine_rule_set := none
    brew_tags := [⟨7, "ceph-tag"⟩]
    product_versions := [⟨9, "pv1"⟩] }

/-- A client serving exactly `cxRaw` under the name `r1`. -/
def cxClient : Client :=
  { releases := fun s => if s = "r1" then [cxRaw] else []
    productIds := fun _ => none
    userIds := fun _ => none
    productVersionIds := fun _ => none
    ruleSetIds := fun _ => none
    postStatus := fun _ _ => 201
    putStatus := fun _ _ => 200 }

/-- Counterexample to C8 as stated: for the fetched resource `cxRaw`, the
normalizer leaves `brew_tags` as the raw relationship objects instead of
the ordered list of their display names. -/
theorem brew_tags_not_flattened :
    (get_release cxClient (Value.str "r1")).map
        (fun o => o.map (fun rel => lookup rel "brew_tags")) =
      .ok (some (some (Value.listPV [⟨7, "ceph-tag"⟩]))) ∧
    Value.listPV [⟨7, "ceph-tag"⟩] ≠ Value.listStr ["ceph-tag"] := by
  decide

/-- C8 amended: for every successfully normalized resource,
`product_versions` becomes the ordered list of element display names
(preserving server order), while `brew_tags` is copied verbatim from the
relationship payload without display-name extraction. -/
theorem list_relationship_flattening (client : Client) (name : Value)
    (rel : Params) (h : get_release client name = .ok (some rel)) :
    ∃ rd, client.releases name.render = [rd] ∧
      lookup rel "product_versions" =
        some (Value.listStr (rd.product_versions.map PV.name)) ∧
      lookup rel "brew_tags" = some (Value.listPV rd.brew_tags) := by
  unfold get_release at h
  rcases hc : client.releases name.render with _ | ⟨rd, _ | ⟨b, t⟩⟩
  · simp only [hc] at h
    exact absurd h (by simp)
  · simp only [hc] at h
    refine ⟨rd, rfl, ?_⟩
    cases hn : normalize_release rd with
    | error e =>
      rw [hn] at h
      exact absurd h (by simp [Except.map])
    | ok rel2 =>
      rw [hn] at h
      simp only [Except.map, Except.ok.injEq, Option.some.injEq] at h
      exact h ▸ normalize_release_lists hn
  · simp only [hc] at h
    exact absurd h (by simp)

/-- The normalized form of `cxRaw` as `get_release` returns it. -/
def cxRel : Params :=
  [("id", .nat 3), ("name", .str "r1"), ("ship_date", .null),
   ("product", .null), ("program_manager", .null),
   ("state_machine_rule_set", .null),
   ("brew_tags", .listPV [⟨7, "ceph-tag"⟩]),
   ("product_versions", .listStr ["pv1"]),
   ("active", .bool true)]

/-- Witness for the amended C8: concrete lookups on the normalization of
`cxRaw`. -/
theorem list_relationship_flattening_witness :
    ∃ rd, cxClient.releases (Value.str "r1").render = [rd] ∧
      lookup cxRel "product_versions" =
        some (Value.listStr (rd.product_versions.map PV.name)) ∧
      lookup cxRel "brew_tags" = some (Value.listPV rd.brew_tags) :=
  list_relationship_flattening cxClient (.str "r1") cxRel (by decide)

end Errata
